import Mathlib

/-!
Verification of the Model Inference & Detection Normalization Engine
(`app/services/model_inference_service.py`).

The Python service is embedded shallowly:

* Floating-point numbers are modelled as rationals (`ℚ`); the service's
  arithmetic on detection rows (halving, subtraction, the affine corner
  formula) is exact on the inputs of interest, so `ℚ` is faithful.
* `math.cos(math.radians a)` and `math.sin(math.radians a)` are
  transcendental; they enter the corner synthesis only as two values per
  angle.  They are therefore passed in as explicit function parameters
  `cosDeg sinDeg : ℚ → ℚ` ("cosine/sine of an angle given in degrees");
  every theorem below holds for arbitrary such functions, and concrete
  instances use `cos 0 = 1`, `sin 0 = 0`, which are exact in the source too.
* Effectful boundaries (filesystem lookups, the two model-loading backends,
  `PIL.Image.open`, the two backend inference calls) are an explicit
  environment `Env` of functions; a boundary that can raise in Python
  returns `Except String _` here, and a `.error` models a raised exception
  at that boundary.  The metadata boundary is modelled twice: `Env.getMetadata`
  idealizes `_get_model_metadata` as total (the behaviour its docstring and
  the spec describe), while `getMetadataScan` models the scan per descriptor,
  including the exceptions its narrow `except (json.JSONDecodeError,
  IOError)` clause does NOT catch (`AttributeError` from `metadata.get` on a
  non-object top level, `UnicodeDecodeError` from `json.load`), which escape
  the scan; `loadModelR` / `predictR` are `load_model` / `predict` over that
  faithful scan and exhibit the resulting uncaught propagation.
* The `loaded_models` dict is an association list keyed by model ID;
  `predict`'s one unguarded dict access (`self.loaded_models[model_id]`
  after the auto-load block, which in Python would raise `KeyError` were the
  key absent) is modelled by the explicit `PredictOutcome.raised` value, so
  "no exception escapes `predict`" is a genuine theorem, not a triviality.
-/

/-! ## Model type classifier (`_determine_model_type`, lines 63-82)

Python's `str.lower` and the `in` / `startswith` operators are modelled on
`List Char`.  Lowering is ASCII lowering, which coincides with Python's
`str.lower` on every folder name the decision table distinguishes
("yolo", "obb", "mm-" are ASCII). -/

def charLower (c : Char) : Char :=
  if 'A' ≤ c ∧ c ≤ 'Z' then Char.ofNat (c.toNat + 32) else c

def strLower (s : String) : List Char := s.toList.map charLower

def listStartsWith : List Char → List Char → Bool
  | _, [] => true
  | [], _ :: _ => false
  | c :: s, p :: ps => c = p && listStartsWith s ps

def listContainsSub : List Char → List Char → Bool
  | s, pat =>
    if listStartsWith s pat then true
    else
      match s with
      | [] => false
      | _ :: t => listContainsSub t pat

/-- `_determine_model_type` (source lines 63-82): lowercase the folder name,
then first-match-wins over: contains "yolo" and "obb" → "yolo-obb";
contains "yolo" → "yolo"; starts with "mm-" → "mmrotate"; else "unknown". -/
def determineModelType (folderName : String) : String :=
  let folderLower := strLower folderName
  if listContainsSub folderLower "yolo".toList then
    if listContainsSub folderLower "obb".toList then "yolo-obb" else "yolo"
  else if listStartsWith folderLower "mm-".toList then "mmrotate"
  else "unknown"

/-! ## The unified detection record -/

/-- One normalized detection, as built by `_yolo_inference` /
`_mmrotate_inference`.  The optional `angle` and `obb` fields model the keys
that are only conditionally added to the Python dict. -/
structure Detection where
  class_id : ℤ
  class_name : String
  confidence : ℚ
  bbox : List ℚ
  bbox_type : String
  angle : Option ℚ
  obb : Option (List ℚ)
deriving DecidableEq

/-! ## Oriented-box corner synthesis (`_mmrotate_inference`, lines 325-342) -/

/-- The corner-synthesis block of `_mmrotate_inference` (source lines
326-341): recompute the center from the top-left `(x, y)`, then for the four
sign pairs `(-1,-1), (1,-1), (1,1), (-1,1)` rotate the half-extents by the
angle and flatten.  `cosA`/`sinA` are the values `math.cos(angle_rad)` /
`math.sin(angle_rad)` computed just above the loop in the source. -/
def cornerSynthesis (x y w h cosA sinA : ℚ) : List ℚ :=
  let cx := x + w / 2
  let cy := y + h / 2
  let dx := w / 2
  let dy := h / 2
  [((-1 : ℚ), (-1 : ℚ)), (1, -1), (1, 1), (-1, 1)].flatMap
    (fun sgn =>
      [cx + sgn.1 * dx * cosA - sgn.2 * dy * sinA,
       cy + sgn.1 * dx * sinA + sgn.2 * dy * cosA])

/-! ## MMRotate executor (`_mmrotate_inference`, lines 246-346) -/

/-- The per-row body of `_mmrotate_inference`'s inner loop (source lines
282-344): a 6-field row `[cx, cy, w, h, angle, score]` is a rotated box, a
5-field row `[x1, y1, x2, y2, score]` is a regular box, anything else is
skipped (`len < 5` and `len > 6` both `continue`); a surviving row is dropped
when `score < confidence`; otherwise the unified detection dict is built.
`names` models `model.CLASSES[class_id] if hasattr(model, 'CLASSES') else
str(class_id)`. -/
def mmProcessRow (cosDeg sinDeg : ℚ → ℚ) (names : ℕ → String) (confidence : ℚ)
    (classId : ℕ) (row : List ℚ) : Option Detection :=
  match row with
  | [cx, cy, w, h, angle, score] =>
    let x := cx - w / 2
    let y := cy - h / 2
    if score < confidence then none
    else
      some
        { class_id := (classId : ℤ), class_name := names classId,
          confidence := score, bbox := [x, y, w, h], bbox_type := "xywha",
          angle := some angle,
          obb := some (cornerSynthesis x y w h (cosDeg angle) (sinDeg angle)) }
  | [x1, y1, x2, y2, score] =>
    if score < confidence then none
    else
      some
        { class_id := (classId : ℤ), class_name := names classId,
          confidence := score, bbox := [x1, y1, x2 - x1, y2 - y1],
          bbox_type := "xywh", angle := none, obb := none }
  | _ => none

/-- The double loop of `_mmrotate_inference` (source lines 279-344):
`for class_id, class_detections in enumerate(bbox_result)`, then each row in
order; each row contributes at most one detection. -/
def mmProcess (cosDeg sinDeg : ℚ → ℚ) (names : ℕ → String) (confidence : ℚ)
    (bboxResult : List (List (List ℚ))) : List Detection :=
  bboxResult.enum.flatMap
    (fun p => p.2.filterMap (mmProcessRow cosDeg sinDeg names confidence p.1))

/-- The score field of an MMRotate candidate row (last field of a 5- or
6-field row), used to state score-boundedness hypotheses. -/
def rowScore (row : List ℚ) : Option ℚ :=
  match row with
  | [_, _, _, _, s] => some s
  | [_, _, _, _, _, s] => some s
  | _ => none

/-! ## YOLO executor (`_yolo_inference`, lines 187-244)

The raw objects returned by `ultralytics`' `model.predict` are duck-typed in
the source (`hasattr` probes); they are modelled by records whose `Option`
fields stand for present/absent attributes. -/

/-- One element of `result.boxes`: class index, confidence, and the two
possible coordinate representations the source probes for. -/
structure YoloBox where
  cls : ℤ
  conf : ℚ
  xyxy : Option (List ℚ)
  xywh : Option (List ℚ)

/-- One element of the list returned by `model.predict`: the class-name
table, the (possibly absent) boxes, and the (possibly absent) per-index
oriented-box array (`result.obb`, each entry's `xyxyxyxy` if present). -/
structure YoloResult where
  names : ℤ → String
  boxes : Option (List YoloBox)
  obb : Option (List (Option (List ℚ)))

/-- The per-box body of `_yolo_inference`'s loop (source lines 207-242):
prefer `xyxy`, fall back to `xywh`, skip if neither; attach the sibling
oriented box when `result.obb` exists and yields a non-empty corner list for
this index (the source guards attachment with `if obb_coords:`, so an empty
list is not attached), forcing `bbox_type = 'obb'`. -/
def yoloProcessBox (result : YoloResult) (idx : ℕ) (box : YoloBox) :
    Option Detection :=
  let rep : Option (List ℚ × String) :=
    match box.xyxy with
    | some coords => some (coords, "xyxy")
    | none =>
      match box.xywh with
      | some coords => some (coords, "xywh")
      | none => none
  match rep with
  | none => none
  | some (coords, bt) =>
    let obbCoords : Option (List ℚ) :=
      match result.obb with
      | some obbs => obbs.getD idx none
      | none => none
    let base : Detection :=
      { class_id := box.cls, class_name := result.names box.cls,
        confidence := box.conf, bbox := coords, bbox_type := bt,
        angle := none, obb := none }
    match obbCoords with
    | some coords =>
      if coords = [] then some base
      else some { base with obb := some coords, bbox_type := "obb" }
    | none => some base

/-- The outer loops of `_yolo_inference` (source lines 199-244): every
result's boxes in index order (`result.boxes is None` skips the result). -/
def yoloProcess (results : List YoloResult) : List Detection :=
  results.flatMap
    (fun r =>
      match r.boxes with
      | none => []
      | some bs => bs.enum.filterMap (fun p => yoloProcessBox r p.1 p.2))

/-! ## Model metadata, cache and environment -/

/-- The metadata record `_get_model_metadata` resolves for a model ID
(source lines 33-61), with the fields the loader and `predict` read:
`name` (from `metadata.json`), `folder` (the directory name) and
`checkpoint_path` (`<folder>/file.pt`). -/
structure Metadata where
  name : String
  folder : String
  checkpoint_path : String
deriving DecidableEq

/-- One value of the `loaded_models` dict (source lines 166-178): the
runnable model handle (abstracted to a token), the family tag string, and
the metadata snapshot taken at load time. -/
structure CacheEntry where
  model : ℕ
  type : String
  metadata : Metadata
deriving DecidableEq

/-- The `loaded_models` dict, as an association list keyed by model ID. -/
abbrev LoadedModels := List (ℕ × CacheEntry)

/-- The effectful boundaries of the service.  A Python call that can raise
is a function into `Except String _`; `.error msg` models an exception with
message `msg` thrown at that boundary. -/
structure Env where
  /-- `_get_model_metadata` (directory scan, lines 33-61), idealized as
  total: this is the boundary as its docstring ("Dictionary with model
  metadata or None if not found") and the spec describe it.  The scan's
  actual uncaught-exception path is modelled separately by
  `getMetadataScan`, and `loadModelR` / `predictR` propagate it. -/
  getMetadata : ℕ → Option Metadata
  /-- `os.path.exists` (lines 156 and 391). -/
  fileExists : String → Bool
  /-- `_load_yolo_model` (lines 84-95): `YOLO(checkpoint_path)`. -/
  loadYolo : String → Except String ℕ
  /-- `_load_mmrotate_model` (lines 97-133): imports, config check,
  `init_detector`. -/
  loadMM : String → String → Except String ℕ
  /-- `Image.open` + `.size` (lines 399-400), returning (width, height). -/
  openImage : String → Except String (ℕ × ℕ)
  /-- `model.predict(image_path, conf=confidence)` plus the attribute reads
  on its results (lines 199-227). -/
  yoloRaw : ℕ → String → ℚ → Except String (List YoloResult)
  /-- `inference_detector(model, image_path)` plus the tuple unwrap
  (lines 259-276), as per-class lists of rows. -/
  mmRaw : ℕ → String → Except String (List (List (List ℚ)))
  /-- `math.cos(math.radians angle)`. -/
  cosDeg : ℚ → ℚ
  /-- `math.sin(math.radians angle)`. -/
  sinDeg : ℚ → ℚ
  /-- `model.CLASSES[class_id] if hasattr(model, 'CLASSES') else
  str(class_id)` (line 315), per model handle. -/
  mmNames : ℕ → ℕ → String

/-- `model_id in self.loaded_models` / `self.loaded_models[model_id]`:
first-match lookup in the association list. -/
def lookupCache : LoadedModels → ℕ → Option CacheEntry
  | [], _ => none
  | (k, e) :: t, mid => if k = mid then some e else lookupCache t mid

/-- `del self.loaded_models[model_id]`: drop the entries keyed `mid`. -/
def eraseCache : LoadedModels → ℕ → LoadedModels
  | [], _ => []
  | (k, e) :: t, mid =>
    if k = mid then eraseCache t mid else (k, e) :: eraseCache t mid

/-- `self.loaded_models[model_id] = {...}`: dict assignment. -/
def insertCache (s : LoadedModels) (mid : ℕ) (e : CacheEntry) : LoadedModels :=
  (mid, e) :: eraseCache s mid

/-- How many cache entries carry the key `mid` (a Python dict always has
exactly 0 or 1; the association list makes that an invariant to prove). -/
def countKey : LoadedModels → ℕ → ℕ
  | [], _ => 0
  | (k, _) :: t, mid => (if k = mid then 1 else 0) + countKey t mid

/-- `load_model` (source lines 135-185).  Already-cached IDs return `True`
immediately; then metadata resolution, checkpoint existence, family
classification and the family-loader dispatch, with every loader exception
(`except Exception`) converted to `False`. -/
def loadModel (env : Env) (s : LoadedModels) (mid : ℕ) : Bool × LoadedModels :=
  if (lookupCache s mid).isSome then (true, s)
  else
    match env.getMetadata mid with
    | none => (false, s)
    | some md =>
      if env.fileExists md.checkpoint_path = false then (false, s)
      else
        let modelType := determineModelType md.folder
        if modelType = "yolo" ∨ modelType = "yolo-obb" then
          match env.loadYolo md.checkpoint_path with
          | .ok m => (true, insertCache s mid ⟨m, modelType, md⟩)
          | .error _ => (false, s)
        else if modelType = "mmrotate" then
          match env.loadMM md.checkpoint_path md.folder with
          | .ok m => (true, insertCache s mid ⟨m, modelType, md⟩)
          | .error _ => (false, s)
        else (false, s)

/-- `unload_model` (source lines 443-456). -/
def unloadModel (s : LoadedModels) (mid : ℕ) : Bool × LoadedModels :=
  if (lookupCache s mid).isSome then (true, eraseCache s mid) else (false, s)

/-- `unload_all_models` (source lines 458-460): `self.loaded_models.clear()`. -/
def unloadAllModels (_s : LoadedModels) : LoadedModels := []

/-- `get_loaded_models` (source lines 462-469): the dict's key list. -/
def getLoadedModels (s : LoadedModels) : List ℕ := s.map (fun p => p.1)

/-! ## The orchestrator (`predict`, lines 348-441) -/

/-- The tagged failure values `predict` returns, one constructor per
`return {'success': False, 'error': ...}` site, carrying the data
interpolated into the message string. -/
inductive PredictFailure
  /-- `f'Failed to load model with ID {model_id}'` (line 382). -/
  | failedToLoad (mid : ℕ)
  /-- `f'Model {model_id} not loaded. Call load_model() first.'` (line 387). -/
  | notLoaded (mid : ℕ)
  /-- `f'Image not found: {image_path}'` (line 394). -/
  | imageNotFound (path : String)
  /-- `f'Failed to read image: {str(e)}'` (line 404). -/
  | imageReadFailed (msg : String)
  /-- `f'Unsupported model type: {model_type}'` (line 422). -/
  | unsupportedType (modelType : String)
  /-- `f'Inference failed: {str(e)}'` (line 440). -/
  | inferenceFailed (msg : String)
deriving DecidableEq

/-- The `'success': True` dictionary `predict` returns (lines 425-435). -/
structure PredictSuccess where
  model_id : ℕ
  model_name : String
  model_type : String
  image_path : String
  image_size : ℕ × ℕ
  detections : List Detection
  detection_count : ℕ
  confidence_threshold : ℚ
deriving DecidableEq

/-- What a call of `predict` can do: return a success dict, return a failure
dict, or let a Python exception escape (the one syntactically possible site
is the unguarded `self.loaded_models[model_id]` at line 408, whose `KeyError`
nothing catches). -/
inductive PredictOutcome
  | ok (r : PredictSuccess)
  | fail (e : PredictFailure)
  | raised (msg : String)
deriving DecidableEq

/-- `_yolo_inference` as called by `predict`: the backend call can raise
(modelled in `env.yoloRaw`), the normalization of its results is
`yoloProcess`. -/
def yoloInference (env : Env) (model : ℕ) (imagePath : String)
    (confidence : ℚ) : Except String (List Detection) :=
  (env.yoloRaw model imagePath confidence).map yoloProcess

/-- `_mmrotate_inference` as called by `predict`: the import and backend
call can raise (modelled in `env.mmRaw`), the per-row normalization is
`mmProcess`. -/
def mmrotateInference (env : Env) (model : ℕ) (imagePath : String)
    (confidence : ℚ) : Except String (List Detection) :=
  (env.mmRaw model imagePath).map
    (mmProcess env.cosDeg env.sinDeg (env.mmNames model) confidence)

/-- `predict` from the image check onward (source lines 390-441): image
existence, image open, the unguarded cache access, family dispatch inside
`try`, and the success dict. -/
def predictLoaded (env : Env) (s : LoadedModels) (mid : ℕ) (imagePath : String)
    (confidence : ℚ) : PredictOutcome × LoadedModels :=
  if env.fileExists imagePath = false then (.fail (.imageNotFound imagePath), s)
  else
    match env.openImage imagePath with
    | .error e => (.fail (.imageReadFailed e), s)
    | .ok sz =>
      match lookupCache s mid with
      | none => (.raised "KeyError", s)
      | some entry =>
        if entry.type = "yolo" ∨ entry.type = "yolo-obb" then
          match yoloInference env entry.model imagePath confidence with
          | .ok dets =>
            (.ok ⟨mid, entry.metadata.name, entry.type, imagePath, sz, dets,
              dets.length, confidence⟩, s)
          | .error e => (.fail (.inferenceFailed e), s)
        else if entry.type = "mmrotate" then
          match mmrotateInference env entry.model imagePath confidence with
          | .ok dets =>
            (.ok ⟨mid, entry.metadata.name, entry.type, imagePath, sz, dets,
              dets.length, confidence⟩, s)
          | .error e => (.fail (.inferenceFailed e), s)
        else (.fail (.unsupportedType entry.type), s)

/-- `predict` (source lines 348-441): the auto-load block, then
`predictLoaded`. -/
def predict (env : Env) (s : LoadedModels) (mid : ℕ) (imagePath : String)
    (confidence : ℚ) (autoLoad : Bool) : PredictOutcome × LoadedModels :=
  if (lookupCache s mid).isSome then predictLoaded env s mid imagePath confidence
  else if autoLoad then
    match loadModel env s mid with
    | (true, s') => predictLoaded env s' mid imagePath confidence
    | (false, s') => (.fail (.failedToLoad mid), s')
  else (.fail (.notLoaded mid), s)

/-- The cache states the service can actually be in: the empty initial cache
(`__init__`, line 31) transformed by any sequence of the public mutating
operations under a fixed environment. -/
inductive Reachable (env : Env) : LoadedModels → Prop
  | init : Reachable env []
  | load (s : LoadedModels) (mid : ℕ) :
      Reachable env s → Reachable env (loadModel env s mid).2
  | unload (s : LoadedModels) (mid : ℕ) :
      Reachable env s → Reachable env (unloadModel s mid).2
  | unloadAll (s : LoadedModels) :
      Reachable env s → Reachable env (unloadAllModels s)
  | predictCall (s : LoadedModels) (mid : ℕ) (imagePath : String)
      (confidence : ℚ) (autoLoad : Bool) :
      Reachable env s →
      Reachable env (predict env s mid imagePath confidence autoLoad).2

/-- Every cached entry carries one of the three loadable family tags. -/
def GoodFamilies (s : LoadedModels) : Prop :=
  ∀ mid e, lookupCache s mid = some e →
    e.type = "yolo" ∨ e.type = "yolo-obb" ∨ e.type = "mmrotate"

/-- Every cached entry's metadata is still resolvable and its checkpoint
still exists, under the fixed environment. -/
def CacheResolvable (env : Env) (s : LoadedModels) : Prop :=
  ∀ mid e, lookupCache s mid = some e →
    env.getMetadata mid = some e.metadata ∧
      env.fileExists e.metadata.checkpoint_path = true

/-! ## Concrete sample values used to instantiate theorems -/

/-- Sample stand-in for `math.cos(math.radians _)`; at angle 0 the true
value is exactly 1. -/
def cosDeg0 : ℚ → ℚ := fun _ => 1

/-- Sample stand-in for `math.sin(math.radians _)`; at angle 0 the true
value is exactly 0. -/
def sinDeg0 : ℚ → ℚ := fun _ => 0

/-- Sample class-name table. -/
def names0 : ℕ → String := fun _ => "plane"

/-! ## Claim theorems -/

/-- Claim C6: `_determine_model_type` is a pure, total, deterministic
function with first-match-wins order: containing "yolo" and "obb" maps to
"yolo-obb"; containing "yolo" without "obb" maps to "yolo"; otherwise
starting with "mm-" maps to "mmrotate"; anything else maps to "unknown"
(containment and the prefix test are on the lowercased name, as in the
source); and the three example names classify as the claim states. -/
theorem determineModelType_first_match_total :
    (∀ name : String,
      (listContainsSub (strLower name) "yolo".toList = true →
        listContainsSub (strLower name) "obb".toList = true →
          determineModelType name = "yolo-obb") ∧
      (listContainsSub (strLower name) "yolo".toList = true →
        listContainsSub (strLower name) "obb".toList = false →
          determineModelType name = "yolo") ∧
      (listContainsSub (strLower name) "yolo".toList = false →
        listStartsWith (strLower name) "mm-".toList = true →
          determineModelType name = "mmrotate") ∧
      (listContainsSub (strLower name) "yolo".toList = false →
        listStartsWith (strLower name) "mm-".toList = false →
          determineModelType name = "unknown") ∧
      (determineModelType name = "yolo-obb" ∨ determineModelType name = "yolo" ∨
        determineModelType name = "mmrotate" ∨ determineModelType name = "unknown")) ∧
    determineModelType "yolov11n-obb-dota" = "yolo-obb" ∧
    determineModelType "mm-oriented-rcnn-r50" = "mmrotate" ∧
    determineModelType "resnet-backbone" = "unknown" := by
  refine ⟨fun name => ⟨?_, ?_, ?_, ?_, ?_⟩, by decide, by decide, by decide⟩
  · intro h1 h2
    have h1a : listContainsSub (strLower name) ['y', 'o', 'l', 'o'] = true := h1
    have h2a : listContainsSub (strLower name) ['o', 'b', 'b'] = true := h2
    simp [determineModelType, h1a, h2a]
  · intro h1 h2
    have h1a : listContainsSub (strLower name) ['y', 'o', 'l', 'o'] = true := h1
    have h2a : listContainsSub (strLower name) ['o', 'b', 'b'] = false := h2
    simp [determineModelType, h1a, h2a]
  · intro h1 h2
    have h1a : listContainsSub (strLower name) ['y', 'o', 'l', 'o'] = false := h1
    have h2a : listStartsWith (strLower name) ['m', 'm', '-'] = true := h2
    simp [determineModelType, h1a, h2a]
  · intro h1 h2
    have h1a : listContainsSub (strLower name) ['y', 'o', 'l', 'o'] = false := h1
    have h2a : listStartsWith (strLower name) ['m', 'm', '-'] = false := h2
    simp [determineModelType, h1a, h2a]
  · by_cases hy : listContainsSub (strLower name) ['y', 'o', 'l', 'o'] = true
    · by_cases ho : listContainsSub (strLower name) ['o', 'b', 'b'] = true
      · exact Or.inl (by simp [determineModelType, hy, ho])
      · exact Or.inr (Or.inl (by simp [determineModelType, hy, ho]))
    · by_cases hm : listStartsWith (strLower name) ['m', 'm', '-'] = true
      · exact Or.inr (Or.inr (Or.inl (by simp [determineModelType, hy, hm])))
      · exact Or.inr (Or.inr (Or.inr (by simp [determineModelType, hy, hm])))

/-- Claim C2: the corner-synthesis block, given top-left `(x,y)`, width `w`,
height `h` and the cosine/sine values of the angle, emits the flat 8-value
array whose pairs are, in the fixed sign order `(-1,-1), (1,-1), (1,1),
(-1,1)`, the points `(cx + sx·(w/2)·cosA − sy·(h/2)·sinA,
cy + sx·(w/2)·sinA + sy·(h/2)·cosA)` with `(cx,cy) = (x+w/2, y+h/2)`; and at
angle 0 (`cosA = 1`, `sinA = 0`, exact also in floating point) with center
`(0,0)`, `w = 4`, `h = 2` — top-left `(-2,-1)` — the result is exactly
`[-2,-1, 2,-1, 2,1, -2,1]`. -/
theorem cornerSynthesis_fixed_order :
    (∀ x y w h cosA sinA : ℚ,
      cornerSynthesis x y w h cosA sinA =
        [x + w / 2 + (-1) * (w / 2) * cosA - (-1) * (h / 2) * sinA,
         y + h / 2 + (-1) * (w / 2) * sinA + (-1) * (h / 2) * cosA,
         x + w / 2 + 1 * (w / 2) * cosA - (-1) * (h / 2) * sinA,
         y + h / 2 + 1 * (w / 2) * sinA + (-1) * (h / 2) * cosA,
         x + w / 2 + 1 * (w / 2) * cosA - 1 * (h / 2) * sinA,
         y + h / 2 + 1 * (w / 2) * sinA + 1 * (h / 2) * cosA,
         x + w / 2 + (-1) * (w / 2) * cosA - 1 * (h / 2) * sinA,
         y + h / 2 + (-1) * (w / 2) * sinA + 1 * (h / 2) * cosA]) ∧
    cornerSynthesis (-2) (-1) 4 2 1 0 = [-2, -1, 2, -1, 2, 1, -2, 1] := by
  constructor
  · intro x y w h cosA sinA
    rfl
  · norm_num [cornerSynthesis]

/-- Claim C4: a 6-field or 5-field MMRotate candidate row is retained iff
its score is at least the confidence threshold (`if float(score) <
confidence: continue`); in particular, with threshold 0.5, a row scoring
0.49 produces no output detection and a row scoring 0.50 produces one. -/
theorem mmrotate_confidence_filter :
    (∀ (cosDeg sinDeg : ℚ → ℚ) (names : ℕ → String) (confidence : ℚ)
      (classId : ℕ) (a b c d e s : ℚ),
      ((mmProcessRow cosDeg sinDeg names confidence classId
          [a, b, c, d, e, s]).isSome = true ↔ confidence ≤ s) ∧
      ((mmProcessRow cosDeg sinDeg names confidence classId
          [a, b, c, d, s]).isSome = true ↔ confidence ≤ s)) ∧
    mmProcess cosDeg0 sinDeg0 names0 (1 / 2) [[[0, 0, 1, 1, 49 / 100]]] = [] ∧
    (mmProcess cosDeg0 sinDeg0 names0 (1 / 2) [[[0, 0, 1, 1, 1 / 2]]]).length = 1 := by
  refine ⟨fun cosDeg sinDeg names confidence classId a b c d e s => ⟨?_, ?_⟩, ?_, ?_⟩
  · by_cases hc : s < confidence
    · simp [mmProcessRow, hc]
    · simp [mmProcessRow, hc]
      exact not_lt.mp hc
  · by_cases hc : s < confidence
    · simp [mmProcessRow, hc]
    · simp [mmProcessRow, hc]
      exact not_lt.mp hc
  · norm_num [mmProcess, mmProcessRow, List.enum]
  · norm_num [mmProcess, mmProcessRow, List.enum, List.filterMap_cons]

/-- Claim C3: a retained 6-field row `[cx,cy,w,h,angle,score]` yields a
detection with `bbox = [cx-w/2, cy-h/2, w, h]`, `bbox_type = "xywha"`, an
`angle` field equal to the row's angle, and an `obb` list of exactly 8
values; a retained 5-field row `[x1,y1,x2,y2,score]` yields `bbox =
[x1, y1, x2-x1, y2-y1]`, `bbox_type = "xywh"`, and neither an `angle` nor an
`obb` field. -/
theorem mmrotate_row_normalization :
    ∀ (cosDeg sinDeg : ℚ → ℚ) (names : ℕ → String) (confidence : ℚ)
      (classId : ℕ),
      (∀ cx cy w h a s : ℚ, confidence ≤ s →
        ∃ d : Detection,
          mmProcessRow cosDeg sinDeg names confidence classId
              [cx, cy, w, h, a, s] = some d ∧
          d.bbox = [cx - w / 2, cy - h / 2, w, h] ∧
          d.bbox_type = "xywha" ∧
          d.angle = some a ∧
          ∃ l : List ℚ, d.obb = some l ∧ l.length = 8) ∧
      (∀ x1 y1 x2 y2 s : ℚ, confidence ≤ s →
        ∃ d : Detection,
          mmProcessRow cosDeg sinDeg names confidence classId
              [x1, y1, x2, y2, s] = some d ∧
          d.bbox = [x1, y1, x2 - x1, y2 - y1] ∧
          d.bbox_type = "xywh" ∧
          d.angle = none ∧ d.obb = none) := by
  intro cosDeg sinDeg names confidence classId
  constructor
  · intro cx cy w h a s hs
    have heq : mmProcessRow cosDeg sinDeg names confidence classId
        [cx, cy, w, h, a, s] = some
          { class_id := (classId : ℤ), class_name := names classId,
            confidence := s,
            bbox := [cx - w / 2, cy - h / 2, w, h], bbox_type := "xywha",
            angle := some a,
            obb := some (cornerSynthesis (cx - w / 2) (cy - h / 2) w h
              (cosDeg a) (sinDeg a)) } := by
      simp [mmProcessRow, not_lt.mpr hs]
    exact ⟨_, heq, rfl, rfl, rfl, _, rfl, rfl⟩
  · intro x1 y1 x2 y2 s hs
    have heq : mmProcessRow cosDeg sinDeg names confidence classId
        [x1, y1, x2, y2, s] = some
          { class_id := (classId : ℤ), class_name := names classId,
            confidence := s,
            bbox := [x1, y1, x2 - x1, y2 - y1], bbox_type := "xywh",
            angle := none, obb := none } := by
      simp [mmProcessRow, not_lt.mpr hs]
    exact ⟨_, heq, rfl, rfl, rfl, rfl⟩

/-! ## Confidence pass-through (claim C5) -/

/-- Helper: an element of an enumerated list is an element of the list. -/
theorem snd_mem_of_mem_enum {α : Type} {l : List α} {p : ℕ × α}
    (h : p ∈ l.enum) : p.2 ∈ l := by
  have := List.mem_enum_iff_getElem?.mp h
  exact List.getElem?_mem this

/-- Helper: the confidence of a detection emitted for an MMRotate row is
exactly the row's score field, unclamped. -/
theorem mmProcessRow_score {cosDeg sinDeg : ℚ → ℚ} {names : ℕ → String}
    {confidence : ℚ} {classId : ℕ} {row : List ℚ} {d : Detection}
    (h : mmProcessRow cosDeg sinDeg names confidence classId row = some d) :
    rowScore row = some d.confidence := by
  unfold mmProcessRow at h
  split at h
  · split at h
    · exact absurd h (by simp)
    · cases h
      rfl
  · split at h
    · exact absurd h (by simp)
    · cases h
      rfl
  · exact absurd h (by simp)

/-- Helper: every detection in `mmProcess`'s output comes from some row of
some class list via `mmProcessRow`. -/
theorem mem_mmProcess {cosDeg sinDeg : ℚ → ℚ} {names : ℕ → String}
    {confidence : ℚ} {bboxResult : List (List (List ℚ))} {d : Detection}
    (h : d ∈ mmProcess cosDeg sinDeg names confidence bboxResult) :
    ∃ classRows ∈ bboxResult, ∃ row ∈ classRows, ∃ classId,
      mmProcessRow cosDeg sinDeg names confidence classId row = some d := by
  unfold mmProcess at h
  rw [List.mem_flatMap] at h
  obtain ⟨p, hp, hd⟩ := h
  rw [List.mem_filterMap] at hd
  obtain ⟨row, hrow, hsome⟩ := hd
  exact ⟨p.2, snd_mem_of_mem_enum hp, row, hrow, p.1, hsome⟩

/-- Helper: the confidence of a detection emitted for a YOLO box is exactly
`box.conf`, unclamped (both with and without an attached oriented box). -/
theorem yoloProcessBox_conf {result : YoloResult} {idx : ℕ} {box : YoloBox}
    {d : Detection} (h : yoloProcessBox result idx box = some d) :
    d.confidence = box.conf := by
  unfold yoloProcessBox at h
  rcases hx : box.xyxy with _ | cx <;> rw [hx] at h
  · rcases hw : box.xywh with _ | cw <;> rw [hw] at h
    · simp at h
    · simp only [] at h
      split at h
      · split at h
        · cases h; rfl
        · cases h; rfl
      · cases h; rfl
  · simp only [] at h
    split at h
    · split at h
      · cases h; rfl
      · cases h; rfl
    · cases h; rfl

/-- Helper: every detection in `yoloProcess`'s output takes its confidence
from some box of some result. -/
theorem mem_yoloProcess {results : List YoloResult} {d : Detection}
    (h : d ∈ yoloProcess results) :
    ∃ r ∈ results, ∃ bs, r.boxes = some bs ∧
      ∃ b ∈ bs, d.confidence = b.conf := by
  unfold yoloProcess at h
  rw [List.mem_flatMap] at h
  obtain ⟨r, hr, hd⟩ := h
  rcases hb : r.boxes with _ | bs
  · rw [hb] at hd
    simp at hd
  · rw [hb] at hd
    rw [List.mem_filterMap] at hd
    obtain ⟨p, hp, hsome⟩ := hd
    exact ⟨r, hr, bs, hb, p.2, snd_mem_of_mem_enum hp, yoloProcessBox_conf hsome⟩

/-- Counterexample to claim C5 as stated: under an arbitrary raw model
output the executors pass the raw score through unclamped, so a 5-field
MMRotate row with score 2 (threshold 0.5) is retained and its detection's
`confidence` is 2, outside `[0,1]`. -/
theorem detection_confidence_outside_unit_interval :
    ∃ d ∈ mmProcess cosDeg0 sinDeg0 names0 (1 / 2) [[[0, 0, 1, 1, 2]]],
      ¬ (0 ≤ d.confidence ∧ d.confidence ≤ 1) := by
  refine ⟨⟨(0 : ℤ), "plane", 2, [0, 0, 1, 1], "xywh", none, none⟩, ?_, ?_⟩
  · norm_num [mmProcess, mmProcessRow, List.enum, names0]
  · norm_num

/-- Claim C5 amended: both family executors copy the raw score into the
detection's `confidence` unchanged, so every retained detection's confidence
lies in `[0,1]` provided every raw score does (the code does not clamp; the
bound is inherited from the model outputs, not enforced). -/
theorem detection_confidence_in_unit_interval_of_scores :
    ∀ (cosDeg sinDeg : ℚ → ℚ) (names : ℕ → String) (confidence : ℚ)
      (bboxResult : List (List (List ℚ))) (results : List YoloResult),
      ((∀ classRows ∈ bboxResult, ∀ row ∈ classRows, ∀ s : ℚ,
          rowScore row = some s → 0 ≤ s ∧ s ≤ 1) →
        ∀ d ∈ mmProcess cosDeg sinDeg names confidence bboxResult,
          0 ≤ d.confidence ∧ d.confidence ≤ 1) ∧
      ((∀ r ∈ results, ∀ bs, r.boxes = some bs →
          ∀ b ∈ bs, 0 ≤ b.conf ∧ b.conf ≤ 1) →
        ∀ d ∈ yoloProcess results, 0 ≤ d.confidence ∧ d.confidence ≤ 1) := by
  intro cosDeg sinDeg names confidence bboxResult results
  constructor
  · intro hscore d hd
    obtain ⟨classRows, hc, row, hrow, classId, hsome⟩ := mem_mmProcess hd
    exact hscore classRows hc row hrow d.confidence (mmProcessRow_score hsome)
  · intro hconf d hd
    obtain ⟨r, hr, bs, hb, b, hbs, hdc⟩ := mem_yoloProcess hd
    rw [hdc]
    exact hconf r hr bs hb b hbs

/-! ## Cache algebra -/

/-- Helper: after erasing a key, looking it up yields nothing. -/
theorem lookupCache_eraseCache_self (s : LoadedModels) (mid : ℕ) :
    lookupCache (eraseCache s mid) mid = none := by
  induction s with
  | nil => rfl
  | cons p t ih =>
    obtain ⟨k, e⟩ := p
    by_cases hk : k = mid
    · simp [eraseCache, hk, ih]
    · simp [eraseCache, hk, lookupCache, ih]

/-- Helper: erasing one key leaves every other key's lookup unchanged. -/
theorem lookupCache_eraseCache_ne (s : LoadedModels) (mid j : ℕ)
    (hj : j ≠ mid) : lookupCache (eraseCache s mid) j = lookupCache s j := by
  induction s with
  | nil => rfl
  | cons p t ih =>
    obtain ⟨k, e⟩ := p
    by_cases hk : k = mid
    · have hkj : ¬ k = j := fun h => hj (h ▸ hk)
      have hmj : ¬ mid = j := fun h => hj h.symm
      simp [eraseCache, hk, lookupCache, hkj, hmj, ih]
    · by_cases hkj : k = j
      · have hjm : ¬ j = mid := hj
        simp [eraseCache, hk, lookupCache, hkj, hjm]
      · simp [eraseCache, hk, lookupCache, hkj, ih]

/-- Helper: an inserted key's lookup is the inserted entry. -/
theorem lookupCache_insertCache_self (s : LoadedModels) (mid : ℕ)
    (e : CacheEntry) : lookupCache (insertCache s mid e) mid = some e := by
  simp [insertCache, lookupCache]

/-- Helper: inserting one key leaves every other key's lookup unchanged. -/
theorem lookupCache_insertCache_ne (s : LoadedModels) (mid j : ℕ)
    (e : CacheEntry) (hj : j ≠ mid) :
    lookupCache (insertCache s mid e) j = lookupCache s j := by
  have : mid ≠ j := fun hm => hj hm.symm
  simp [insertCache, lookupCache, this, lookupCache_eraseCache_ne s mid j hj]

/-- Helper: erasing a key removes every entry under it. -/
theorem countKey_eraseCache_self (s : LoadedModels) (mid : ℕ) :
    countKey (eraseCache s mid) mid = 0 := by
  induction s with
  | nil => rfl
  | cons p t ih =>
    obtain ⟨k, e⟩ := p
    by_cases hk : k = mid
    · simp [eraseCache, hk, ih]
    · simp [eraseCache, countKey, hk, ih]

/-- Helper: after a dict assignment the key is held by exactly one entry. -/
theorem countKey_insertCache_self (s : LoadedModels) (mid : ℕ)
    (e : CacheEntry) : countKey (insertCache s mid e) mid = 1 := by
  simp [insertCache, countKey, countKey_eraseCache_self s mid]

/-- Helper: a key that resolves is held by at least one entry. -/
theorem countKey_pos_of_lookup (s : LoadedModels) (mid : ℕ) (e : CacheEntry)
    (h : lookupCache s mid = some e) : 1 ≤ countKey s mid := by
  induction s with
  | nil => simp [lookupCache] at h
  | cons p t ih =>
    obtain ⟨k, e2⟩ := p
    by_cases hk : k = mid
    · simp [countKey, hk]
    · simp only [lookupCache, hk, if_false] at h
      have := ih h
      simpa [countKey, hk] using this

/-- Helper: an erased key is gone from the key enumeration. -/
theorem not_mem_keys_eraseCache (s : LoadedModels) (mid : ℕ) :
    mid ∉ getLoadedModels (eraseCache s mid) := by
  induction s with
  | nil => simp [eraseCache, getLoadedModels]
  | cons p t ih =>
    obtain ⟨k, e⟩ := p
    by_cases hk : k = mid
    · simpa [eraseCache, hk] using ih
    · simp [eraseCache, hk, getLoadedModels] at ih ⊢
      exact ⟨fun hmk => hk hmk.symm, ih⟩

/-- Helper: the full case analysis of `load_model`: an already-cached ID
succeeds leaving the cache unchanged; otherwise the call either fails
leaving the cache unchanged, or succeeds by inserting a freshly loaded entry
whose family tag is yolo, yolo-obb or mmrotate and whose metadata passed the
resolution and checkpoint-existence checks. -/
theorem loadModel_spec (env : Env) (s : LoadedModels) (mid : ℕ) :
    ((lookupCache s mid).isSome = true ∧ loadModel env s mid = (true, s)) ∨
    loadModel env s mid = (false, s) ∨
    (∃ md m, lookupCache s mid = none ∧ env.getMetadata mid = some md ∧
      env.fileExists md.checkpoint_path = true ∧
      (determineModelType md.folder = "yolo" ∨
        determineModelType md.folder = "yolo-obb" ∨
        determineModelType md.folder = "mmrotate") ∧
      loadModel env s mid =
        (true, insertCache s mid ⟨m, determineModelType md.folder, md⟩)) := by
  by_cases hl : (lookupCache s mid).isSome = true
  · exact Or.inl ⟨hl, by simp [loadModel, hl]⟩
  · have hln : lookupCache s mid = none := by
      rcases hx : lookupCache s mid with _ | e
      · rfl
      · rw [hx] at hl
        simp at hl
    rcases hm : env.getMetadata mid with _ | md
    · exact Or.inr (Or.inl (by simp [loadModel, hl, hm]))
    · by_cases hf : env.fileExists md.checkpoint_path = false
      · exact Or.inr (Or.inl (by simp [loadModel, hl, hm, hf]))
      · have hft : env.fileExists md.checkpoint_path = true := by
          rcases hb : env.fileExists md.checkpoint_path
          · exact absurd hb hf
          · rfl
        by_cases hy : determineModelType md.folder = "yolo" ∨
            determineModelType md.folder = "yolo-obb"
        · rcases hld : env.loadYolo md.checkpoint_path with msg | m
          · exact Or.inr (Or.inl (by simp [loadModel, hl, hm, hf, hy, hld]))
          · refine Or.inr (Or.inr ⟨md, m, hln, rfl, hft, ?_, ?_⟩)
            · rcases hy with hy | hy
              · exact Or.inl hy
              · exact Or.inr (Or.inl hy)
            · simp [loadModel, hl, hm, hf, hy, hld]
        · by_cases hmm : determineModelType md.folder = "mmrotate"
          · rcases hld : env.loadMM md.checkpoint_path md.folder with msg | m
            · exact Or.inr (Or.inl (by simp [loadModel, hl, hm, hf, hy, hmm, hld]))
            · refine Or.inr (Or.inr ⟨md, m, hln, rfl, hft, Or.inr (Or.inr hmm), ?_⟩)
              simp [loadModel, hl, hm, hf, hy, hmm, hld]
          · exact Or.inr (Or.inl (by simp [loadModel, hl, hm, hf, hy, hmm]))

/-- Claim C7: `load_model` is idempotent.  For an already-cached ID it
returns true with the cache unchanged, and it does so for every environment
(in particular for environments whose family loaders all fail — no loader is
consulted); and after any successful load from a duplicate-free cache, a
second call (under any environment) returns true again and the cache holds
exactly one entry for that ID. -/
theorem loadModel_idempotent :
    ∀ (env env2 : Env) (s : LoadedModels) (mid : ℕ),
      ((lookupCache s mid).isSome = true → loadModel env s mid = (true, s)) ∧
      (countKey s mid ≤ 1 →
        ∀ s2, loadModel env s mid = (true, s2) →
          loadModel env2 s2 mid = (true, s2) ∧ countKey s2 mid = 1) := by
  intro env env2 s mid
  constructor
  · intro hl
    simp [loadModel, hl]
  · intro hcount s2 hload
    rcases loadModel_spec env s mid with ⟨hl, heq⟩ | heq | ⟨md, m, hln, hm, hf, hfam, heq⟩
    · rw [heq] at hload
      have hs : s = s2 := congrArg Prod.snd hload
      subst hs
      refine ⟨by simp [loadModel, hl], ?_⟩
      rcases hx : lookupCache s mid with _ | e
      · rw [hx] at hl
        simp at hl
      · exact le_antisymm hcount (countKey_pos_of_lookup s mid e hx)
    · rw [heq] at hload
      exact absurd (congrArg Prod.fst hload) (by simp)
    · rw [heq] at hload
      have hs : insertCache s mid ⟨m, determineModelType md.folder, md⟩ = s2 :=
        congrArg Prod.snd hload
      subst hs
      have hsome : (lookupCache
          (insertCache s mid ⟨m, determineModelType md.folder, md⟩) mid).isSome = true := by
        rw [lookupCache_insertCache_self]
        rfl
      exact ⟨by simp [loadModel, hsome], countKey_insertCache_self s mid _⟩

/-- Claim C9: `unload_model` on an absent ID returns false and leaves the
cache unchanged; on a cached ID it returns true, removes exactly that entry
(every other ID's lookup is untouched), and the ID no longer appears in
`get_loaded_models`. -/
theorem unloadModel_semantics :
    ∀ (s : LoadedModels) (mid : ℕ),
      (lookupCache s mid = none → unloadModel s mid = (false, s)) ∧
      ((lookupCache s mid).isSome = true →
        (unloadModel s mid).1 = true ∧
        (∀ j, j ≠ mid →
          lookupCache (unloadModel s mid).2 j = lookupCache s j) ∧
        lookupCache (unloadModel s mid).2 mid = none ∧
        mid ∉ getLoadedModels (unloadModel s mid).2) := by
  intro s mid
  constructor
  · intro hl
    simp [unloadModel, hl]
  · intro hl
    have h2 : (unloadModel s mid).2 = eraseCache s mid := by
      simp [unloadModel, hl]
    refine ⟨by simp [unloadModel, hl], ?_, ?_, ?_⟩
    · intro j hj
      rw [h2]
      exact lookupCache_eraseCache_ne s mid j hj
    · rw [h2]
      exact lookupCache_eraseCache_self s mid
    · rw [h2]
      exact not_mem_keys_eraseCache s mid

/-! ## Reachable-state invariants -/

/-- Helper: the post-auto-load part of `predict` never mutates the cache. -/
theorem predictLoaded_state (env : Env) (s : LoadedModels) (mid : ℕ)
    (imagePath : String) (confidence : ℚ) :
    (predictLoaded env s mid imagePath confidence).2 = s := by
  unfold predictLoaded
  split
  · rfl
  · split
    · rfl
    · split
      · rfl
      · split
        · split
          · rfl
          · rfl
        · split
          · split
            · rfl
            · rfl
          · rfl

/-- Helper: `predict` either leaves the cache alone or changes it exactly as
`load_model` does. -/
theorem predict_state (env : Env) (s : LoadedModels) (mid : ℕ)
    (imagePath : String) (confidence : ℚ) (autoLoad : Bool) :
    (predict env s mid imagePath confidence autoLoad).2 = s ∨
    (predict env s mid imagePath confidence autoLoad).2 =
      (loadModel env s mid).2 := by
  unfold predict
  split
  · exact Or.inl (predictLoaded_state env s mid imagePath confidence)
  · split
    · split
      · rename_i heq
        rw [predictLoaded_state, heq]
        exact Or.inr rfl
      · rename_i heq
        rw [heq]
        exact Or.inr rfl
    · exact Or.inl rfl

/-- Helper: preservation of the two cache invariants by one `load_model`
call. -/
theorem loadModel_preserves_invariants (env : Env) (s : LoadedModels)
    (mid : ℕ) (hres : CacheResolvable env s) (hgood : GoodFamilies s) :
    CacheResolvable env (loadModel env s mid).2 ∧
      GoodFamilies (loadModel env s mid).2 := by
  rcases loadModel_spec env s mid with ⟨_, heq⟩ | heq | ⟨md, m, _, hm, hf, hfam, heq⟩
  · rw [heq]
    exact ⟨hres, hgood⟩
  · rw [heq]
    exact ⟨hres, hgood⟩
  · rw [heq]
    constructor
    · intro j e hj
      by_cases hjm : j = mid
      · subst hjm
        rw [lookupCache_insertCache_self] at hj
        cases hj
        exact ⟨hm, hf⟩
      · rw [lookupCache_insertCache_ne s mid j _ hjm] at hj
        exact hres j e hj
    · intro j e hj
      by_cases hjm : j = mid
      · subst hjm
        rw [lookupCache_insertCache_self] at hj
        cases hj
        exact hfam
      · rw [lookupCache_insertCache_ne s mid j _ hjm] at hj
        exact hgood j e hj

/-- Helper: preservation of the two cache invariants by one `unload_model`
call. -/
theorem unloadModel_preserves_invariants (env : Env) (s : LoadedModels)
    (mid : ℕ) (hres : CacheResolvable env s) (hgood : GoodFamilies s) :
    CacheResolvable env (unloadModel s mid).2 ∧
      GoodFamilies (unloadModel s mid).2 := by
  unfold unloadModel
  split
  · constructor
    · intro j e hj
      by_cases hjm : j = mid
      · subst hjm
        rw [lookupCache_eraseCache_self] at hj
        cases hj
      · rw [lookupCache_eraseCache_ne s mid j hjm] at hj
        exact hres j e hj
    · intro j e hj
      by_cases hjm : j = mid
      · subst hjm
        rw [lookupCache_eraseCache_self] at hj
        cases hj
      · rw [lookupCache_eraseCache_ne s mid j hjm] at hj
        exact hgood j e hj
  · exact ⟨hres, hgood⟩

/-- Helper: every reachable cache state satisfies both invariants: cached
entries resolve to live metadata with an existing checkpoint, and carry one
of the three loadable family tags. -/
theorem reachable_invariants {env : Env} {s : LoadedModels}
    (h : Reachable env s) : CacheResolvable env s ∧ GoodFamilies s := by
  induction h with
  | init =>
    constructor
    · intro j e hj
      simp [lookupCache] at hj
    · intro j e hj
      simp [lookupCache] at hj
  | load s mid _ ih => exact loadModel_preserves_invariants env s mid ih.1 ih.2
  | unload s mid _ ih => exact unloadModel_preserves_invariants env s mid ih.1 ih.2
  | unloadAll s _ _ =>
    constructor
    · intro j e hj
      simp [unloadAllModels, lookupCache] at hj
    · intro j e hj
      simp [unloadAllModels, lookupCache] at hj
  | predictCall s mid imagePath confidence autoLoad _ ih =>
    rcases predict_state env s mid imagePath confidence autoLoad with heq | heq
    · rw [heq]
      exact ih
    · rw [heq]
      exact loadModel_preserves_invariants env s mid ih.1 ih.2

/-- Helper: a successful `load_model` leaves the requested ID cached. -/
theorem loadModel_true_lookup (env : Env) (s : LoadedModels) (mid : ℕ)
    (s2 : LoadedModels) (h : loadModel env s mid = (true, s2)) :
    (lookupCache s2 mid).isSome = true := by
  rcases loadModel_spec env s mid with ⟨hl, heq⟩ | heq | ⟨md, m, _, _, _, _, heq⟩
  · rw [heq] at h
    have : s = s2 := congrArg Prod.snd h
    subst this
    exact hl
  · rw [heq] at h
    exact absurd (congrArg Prod.fst h) (by simp)
  · rw [heq] at h
    have : insertCache s mid ⟨m, determineModelType md.folder, md⟩ = s2 :=
      congrArg Prod.snd h
    subst this
    rw [lookupCache_insertCache_self]
    rfl

/-- Helper: whenever the requested ID is cached, the post-auto-load part of
`predict` yields a tagged success or failure value (never the `KeyError`
path). -/
theorem predictLoaded_tagged (env : Env) (s : LoadedModels) (mid : ℕ)
    (imagePath : String) (confidence : ℚ)
    (hl : (lookupCache s mid).isSome = true) :
    (∃ r, (predictLoaded env s mid imagePath confidence).1 =
        PredictOutcome.ok r) ∨
    (∃ e, (predictLoaded env s mid imagePath confidence).1 =
        PredictOutcome.fail e) := by
  unfold predictLoaded
  split
  · exact Or.inr ⟨_, rfl⟩
  · split
    · exact Or.inr ⟨_, rfl⟩
    · split
      · rename_i heq
        rw [heq] at hl
        simp at hl
      · split
        · split
          · exact Or.inl ⟨_, rfl⟩
          · exact Or.inr ⟨_, rfl⟩
        · split
          · split
            · exact Or.inl ⟨_, rfl⟩
            · exact Or.inr ⟨_, rfl⟩
          · exact Or.inr ⟨_, rfl⟩

/-- Supporting theorem for the claim-C1 finding: `predict` raise-freedom
holds of everything downstream of the metadata scan.  For every environment
— including environments in which the loaders, the image open and either
family's backend inference all throw — the call produces a tagged value and
the `KeyError`-escape outcome is impossible.  This is the behaviour the spec
asks for, and it is what the program would do were `_get_model_metadata`'s
scan total (its `except` clause widened); the scan-level model below
(`getMetadataScan` / `loadModelR` / `predictR`) shows the actual program
falls short of it at exactly that one boundary. -/
theorem predict_never_raises_with_total_scan :
    ∀ (env : Env) (s : LoadedModels) (mid : ℕ) (imagePath : String)
      (confidence : ℚ) (autoLoad : Bool),
      (∃ r, (predict env s mid imagePath confidence autoLoad).1 =
          PredictOutcome.ok r) ∨
      (∃ e, (predict env s mid imagePath confidence autoLoad).1 =
          PredictOutcome.fail e) := by
  intro env s mid imagePath confidence autoLoad
  unfold predict
  split
  · rename_i hl
    exact predictLoaded_tagged env s mid imagePath confidence hl
  · split
    · split
      · rename_i heq
        exact predictLoaded_tagged env _ mid imagePath confidence
          (loadModel_true_lookup env s mid _ heq)
      · exact Or.inr ⟨_, rfl⟩
    · exact Or.inr ⟨_, rfl⟩

/-- Claim C8: under any reachable cache state, a model ID whose metadata
does not resolve — and likewise one whose resolved checkpoint file does not
exist on disk — makes `load_model` return false with the cache unchanged. -/
theorem loadModel_unresolvable_fails :
    ∀ (env : Env) (s : LoadedModels) (mid : ℕ), Reachable env s →
      (env.getMetadata mid = none → loadModel env s mid = (false, s)) ∧
      (∀ md, env.getMetadata mid = some md →
        env.fileExists md.checkpoint_path = false →
        loadModel env s mid = (false, s)) := by
  intro env s mid hreach
  have hres := (reachable_invariants hreach).1
  constructor
  · intro hm
    have hln : lookupCache s mid = none := by
      rcases hx : lookupCache s mid with _ | e
      · rfl
      · have h1 := (hres mid e hx).1
        rw [hm] at h1
        cases h1
    simp [loadModel, hln, hm]
  · intro md hm hf
    have hln : lookupCache s mid = none := by
      rcases hx : lookupCache s mid with _ | e
      · rfl
      · obtain ⟨h1, h2⟩ := hres mid e hx
        rw [hm] at h1
        have hme : md = e.metadata := Option.some.inj h1
        rw [hme, h2] at hf
        cases hf
    simp [loadModel, hln, hm, hf]

/-- Sample environment for instantiating the state-hypothesis theorems: no
metadata resolves, no file exists, and every effectful boundary throws. -/
def env0 : Env where
  getMetadata := fun _ => none
  fileExists := fun _ => false
  loadYolo := fun _ => .error "boom"
  loadMM := fun _ _ => .error "boom"
  openImage := fun _ => .error "boom"
  yoloRaw := fun _ _ _ => .error "boom"
  mmRaw := fun _ _ => .error "boom"
  cosDeg := fun _ => 1
  sinDeg := fun _ => 0
  mmNames := fun _ _ => "plane"

/-- Witness for claim C8 at the initial (empty, reachable) cache and an
environment resolving no metadata: `load_model` returns false and leaves the
cache empty. -/
theorem loadModel_unresolvable_fails_witness :
    loadModel env0 [] 0 = (false, []) :=
  (loadModel_unresolvable_fails env0 [] 0 Reachable.init).1 rfl

/-- Helper: on a cache whose entries all carry a loadable family tag, the
post-auto-load part of `predict` cannot take the unsupported-type branch. -/
theorem predictLoaded_not_unsupported (env : Env) (s : LoadedModels)
    (mid : ℕ) (imagePath : String) (confidence : ℚ)
    (hgood : GoodFamilies s) (msg : String) :
    (predictLoaded env s mid imagePath confidence).1 ≠
      PredictOutcome.fail (PredictFailure.unsupportedType msg) := by
  intro hcontra
  unfold predictLoaded at hcontra
  split at hcontra
  · simp at hcontra
  · split at hcontra
    · simp at hcontra
    · split at hcontra
      · simp at hcontra
      · rename_i entry hentry
        split at hcontra
        · split at hcontra <;> simp at hcontra
        · split at hcontra
          · split at hcontra <;> simp at hcontra
          · rename_i hny hnm
            rcases hgood mid entry hentry with hy | hy | hy
            · exact hny (Or.inl hy)
            · exact hny (Or.inr hy)
            · exact hnm hy

/-- Claim C10: in any reachable cache state, every cached entry carries a
family tag among yolo, yolo-obb and mmrotate; `load_model` returns false
(caching nothing) for a model whose folder classifies as "unknown"; and
consequently `predict`'s unsupported-model-type failure branch is
unreachable. -/
theorem cache_family_invariant :
    ∀ (env : Env) (s : LoadedModels), Reachable env s →
      GoodFamilies s ∧
      (∀ mid md, lookupCache s mid = none → env.getMetadata mid = some md →
        determineModelType md.folder = "unknown" →
        loadModel env s mid = (false, s)) ∧
      (∀ mid imagePath confidence autoLoad msg,
        (predict env s mid imagePath confidence autoLoad).1 ≠
          PredictOutcome.fail (PredictFailure.unsupportedType msg)) := by
  intro env s hreach
  obtain ⟨hres, hgood⟩ := reachable_invariants hreach
  refine ⟨hgood, ?_, ?_⟩
  · intro mid md hln hm htype
    simp [loadModel, hln, hm, htype]
  · intro mid imagePath confidence autoLoad msg
    unfold predict
    split
    · exact predictLoaded_not_unsupported env s mid imagePath confidence hgood msg
    · split
      · split
        · rename_i heq
          have hpres := loadModel_preserves_invariants env s mid hres hgood
          rw [heq] at hpres
          exact predictLoaded_not_unsupported env _ mid imagePath confidence
            hpres.2 msg
        · simp
      · simp

/-- Witness for claim C10 at the initial (empty, reachable) cache: the
family invariant holds, unknown-family loads fail, and no `predict` call
reports an unsupported model type. -/
theorem cache_family_invariant_witness :
    GoodFamilies [] ∧
    (∀ mid md, lookupCache [] mid = none → env0.getMetadata mid = some md →
      determineModelType md.folder = "unknown" →
      loadModel env0 [] mid = (false, [])) ∧
    (∀ mid imagePath confidence autoLoad msg,
      (predict env0 [] mid imagePath confidence autoLoad).1 ≠
        PredictOutcome.fail (PredictFailure.unsupportedType msg)) :=
  cache_family_invariant env0 [] Reachable.init

/-! ## The metadata scan's exception path (claim C1)

`_get_model_metadata` (source lines 33-61) walks the store's folders and for
each descriptor does `json.load` + `metadata.get('id')` inside
`try: ... except (json.JSONDecodeError, IOError): continue`.  That clause
catches a malformed-JSON text and an unreadable file, but not every way the
body can raise: a metadata.json whose top-level JSON value is not an object
(for example `[]`) parses fine and then `metadata.get('id')` raises
`AttributeError`; a file that is not valid UTF-8 makes `json.load` raise
`UnicodeDecodeError`.  Neither is in the catch tuple, so the exception
escapes the scan; the call sites are unprotected (`load_model` line 150 is
before its `try` at line 162, and `predict` reaches the scan through
`load_model` at line 379, outside its `try` at line 414), so it escapes
`load_model` and `predict` too.  The definitions below model the scan at
that per-descriptor granularity. -/

/-- What reading one folder's descriptor can do, per source lines 46-59. -/
inductive DescriptorRead
  /-- No `metadata.json` in the folder (line 49 check fails): skipped. -/
  | missing
  /-- Reading raises `json.JSONDecodeError` or `IOError`: caught at line 58
  and skipped silently. -/
  | caughtError
  /-- Reading raises an exception outside the catch tuple
  (`AttributeError` from `metadata.get` on a non-object top level,
  `UnicodeDecodeError` from `json.load`): it escapes the scan. -/
  | uncaughtError (msg : String)
  /-- A parsed descriptor carrying an `id` and the resolved metadata. -/
  | found (mid : ℕ) (md : Metadata)

/-- `_get_model_metadata` over the per-descriptor reads, in scan order:
skipped folders continue, the first matching `id` wins, an uncaught
exception aborts the scan, and an exhausted scan returns `None`. -/
def getMetadataScan : List DescriptorRead → ℕ → Except String (Option Metadata)
  | [], _ => .ok none
  | .missing :: rest, target => getMetadataScan rest target
  | .caughtError :: rest, target => getMetadataScan rest target
  | .uncaughtError msg :: _, _ => .error msg
  | .found mid md :: rest, target =>
    if mid = target then .ok (some md) else getMetadataScan rest target

/-- `load_model` over the faithful scan: identical to `loadModel` except
that the metadata resolution at line 150 — which sits before the `try` at
line 162 — can now raise, and when it does the exception leaves `load_model`
(`.error msg` in the first component). -/
def loadModelR (env : Env) (store : List DescriptorRead) (s : LoadedModels)
    (mid : ℕ) : Except String Bool × LoadedModels :=
  if (lookupCache s mid).isSome then (.ok true, s)
  else
    match getMetadataScan store mid with
    | .error msg => (.error msg, s)
    | .ok none => (.ok false, s)
    | .ok (some md) =>
      if env.fileExists md.checkpoint_path = false then (.ok false, s)
      else
        let modelType := determineModelType md.folder
        if modelType = "yolo" ∨ modelType = "yolo-obb" then
          match env.loadYolo md.checkpoint_path with
          | .ok m => (.ok true, insertCache s mid ⟨m, modelType, md⟩)
          | .error _ => (.ok false, s)
        else if modelType = "mmrotate" then
          match env.loadMM md.checkpoint_path md.folder with
          | .ok m => (.ok true, insertCache s mid ⟨m, modelType, md⟩)
          | .error _ => (.ok false, s)
        else (.ok false, s)

/-- `predict` over the faithful scan: identical to `predict` except that the
auto-load call at line 379 — outside `predict`'s `try` at line 414 — now
propagates a scan exception out of `predict` as a raised outcome. -/
def predictR (env : Env) (store : List DescriptorRead) (s : LoadedModels)
    (mid : ℕ) (imagePath : String) (confidence : ℚ) (autoLoad : Bool) :
    PredictOutcome × LoadedModels :=
  if (lookupCache s mid).isSome then predictLoaded env s mid imagePath confidence
  else if autoLoad then
    match loadModelR env store s mid with
    | (.ok true, s2) => predictLoaded env s2 mid imagePath confidence
    | (.ok false, s2) => (.fail (.failedToLoad mid), s2)
    | (.error msg, s2) => (.raised msg, s2)
  else (.fail (.notLoaded mid), s)

/-- Claim C1 (code-bug demonstration): with one malformed descriptor in the
store — a metadata.json whose top-level JSON value is not an object, so
`metadata.get('id')` raises `AttributeError`, which the scan's
`except (json.JSONDecodeError, IOError)` clause does not catch — and an
uncached model ID, `load_model` lets the exception escape, and an auto-load
`predict` call does too: `predict` is NOT a total tagged-value function of
the program as written, contradicting the claim and the spec's stated
propagation policy.  (The clamped-boundary theorem
`predict_never_raises_with_total_scan` shows every other path is exception
free, locating the bug precisely at the scan.) -/
theorem predict_raises_on_malformed_descriptor :
    (loadModelR env0 [DescriptorRead.uncaughtError "AttributeError"] [] 1).1 =
      Except.error "AttributeError" ∧
    (predictR env0 [DescriptorRead.uncaughtError "AttributeError"] [] 1
        "img.jpg" (1 / 4) true).1 =
      PredictOutcome.raised "AttributeError" := by
  constructor
  · rfl
  · rfl
